import Mathlib

/-!
Verification of the PyND neighborhood-density calculator
(`calcnd/neighbors.py`).  The pandas DataFrame is modelled as a list of
named feature columns together with a Code identifier per row; a cell is
`Option Int`, with `none` standing for a missing value (NaN).  The class
`Neighbors` is modelled by the fallible constructor `mkNeighbors`
(validation exactly as in `Neighbors.__init__`) followed by the pure scan
`computeFold` (the double loop of `Neighbors._Compute`).
-/

/-- A value stored in one cell of the data table: `none` models a missing
value (NaN after `pandas.read_csv`), `some v` a present value compared with
the native equality of the dataset. -/
abbrev Cell := Option Int

/-- Model of the pandas DataFrame handed to `Neighbors`: an ordered list of
feature column names, the `Code` identifier of each row, and the cell
matrix in row order (row `i` of `cells` is aligned with `columns`). -/
structure DataFrame where
  columns : List String
  codes : List Nat
  cells : List (List Cell)
  deriving DecidableEq, Repr

/-- `len(data.index)`: the number of rows of the dataset. -/
def DataFrame.nrows (df : DataFrame) : Nat := df.codes.length

/-- `data.columns.get_loc(f)` as a fallible lookup: position of column `f`,
or `none` when the column is absent (pandas raises `KeyError` there). -/
def colIndex : List String → String → Option Nat
  | [], _ => none
  | c :: cs, f => if c = f then some 0 else (colIndex cs f).map (· + 1)

/-- `data.iloc[i, data.columns.get_loc(f)]` flattened to a single optional
value: `some v` when row `i` has a present value `v` in column `f`, and
`none` when the cell is missing or the access is out of range. -/
def DataFrame.getVal (df : DataFrame) (i : Nat) (f : String) : Cell :=
  match colIndex df.columns f with
  | none => none
  | some c => (df.cells.getD i []).getD c none

/-- `data.iloc[i, data.columns.get_loc(f)]` with explicit failure: the
outer `none` models a raised `KeyError`/`IndexError`, while `some cell`
is a successful access to a (possibly missing) cell. -/
def DataFrame.getCellChecked (df : DataFrame) (i : Nat) (f : String) : Option Cell :=
  match colIndex df.columns f with
  | none => none
  | some c =>
    match df.cells[i]? with
    | none => none
    | some row => row[c]?

/-- `data.iloc[i, data.columns.get_loc("Code")]`: the identifier of row
`i`.  The data model guarantees every item exposes a Code identifier. -/
def DataFrame.codeAt (df : DataFrame) (i : Nat) : Nat := df.codes.getD i 0

/-- Well-formedness of the modelled DataFrame: the cell matrix has one row
per Code entry and one cell per column, as a pandas DataFrame guarantees. -/
def DataFrame.WF (df : DataFrame) : Prop :=
  df.cells.length = df.codes.length ∧ ∀ row ∈ df.cells, row.length = df.columns.length

/-- `Neighbors._MatchFeature(i, j, feature)`: true iff both cells are
present (`pd.notna`) and the two values are equal. -/
def matchFeature (df : DataFrame) (i j : Nat) (f : String) : Bool :=
  match df.getVal i f, df.getVal j f with
  | some a, some b => a == b
  | _, _ => false

/-- `Neighbors._MatchFeature` with explicit failure of the column lookup:
`none` models the `KeyError` pandas would raise for an unknown column or
an out-of-range row, `some b` the boolean the function returns. -/
def matchFeatureChecked (df : DataFrame) (i j : Nat) (f : String) : Option Bool :=
  match df.getCellChecked i f, df.getCellChecked j f with
  | some a, some b =>
      some (match a, b with
            | some x, some y => x == y
            | _, _ => false)
  | _, _ => none

/-- The inner feature loop of `Neighbors._Compute`: starting from
`matches = 0` and `matched_features = ""`, each matching feature increments
the counter and extends the comma-joined string. -/
def matchedFeatures (df : DataFrame) (features : List String) (i j : Nat) : Nat × String :=
  features.foldl
    (fun acc f =>
      if matchFeature df i j f then
        (acc.1 + 1, if acc.2 = "" then f else acc.2 ++ ", " ++ f)
      else acc)
    (0, "")

/-- The per-pair match count accumulated by the inner feature loop. -/
def matchCount (df : DataFrame) (features : List String) (i j : Nat) : Nat :=
  (matchedFeatures df features i j).1

/-- The inner feature loop threaded through `Option`: fails iff some
feature lookup fails. -/
def matchedFeaturesChecked (df : DataFrame) (features : List String) (i j : Nat) :
    Option (Nat × String) :=
  features.foldlM
    (fun acc f => do
      let b ← matchFeatureChecked df i j f
      pure (if b then
              (acc.1 + 1, if acc.2 = "" then f else acc.2 ++ ", " ++ f)
            else acc))
    (0, "")

/-- The index pairs visited by the double loop of `Neighbors._Compute`:
`for i in range(0, n): for j in range(i, n): if i != j: ...`
(`List.range' i (n - i)` is `range(i, n)`). -/
def pairIndices (n : Nat) : List (Nat × Nat) :=
  (List.range n).flatMap (fun i =>
    (List.range' i (n - i)).filterMap (fun j => if i ≠ j then some (i, j) else none))

/-- The acceptance test of `Neighbors._Compute`:
`matches >= len(features) - allowed_misses and matches <= allowed_matches`,
evaluated over the integers as in Python. -/
def acceptPair (k : Nat) (allowed_misses allowed_matches : Int) (nMatches : Nat) : Bool :=
  decide ((k : Int) - allowed_misses ≤ (nMatches : Int) ∧ (nMatches : Int) ≤ allowed_matches)

/-- One row of the neighbors DataFrame built by `Neighbors._Compute`
(columns target, neighbor, num_matched_features, matched_features). -/
structure NeighborRow where
  target : Nat
  neighbor : Nat
  num_matched_features : Nat
  matched_features : String
  deriving DecidableEq, Repr

/-- The row appended for an accepted pair `(i, j)`: the Code of `i` as
target, the Code of `j` as neighbor, and the inner-loop accumulators. -/
def mkRow (df : DataFrame) (features : List String) (p : Nat × Nat) : NeighborRow :=
  ⟨df.codeAt p.1, df.codeAt p.2,
   (matchedFeatures df features p.1 p.2).1, (matchedFeatures df features p.1 p.2).2⟩

/-- The body of one iteration of the pair loop in `Neighbors._Compute`:
when the acceptance test passes, increment `nd[i]`, then `nd[j]`, and
append one neighbor row; otherwise leave the accumulators unchanged. -/
def scanStep (df : DataFrame) (features : List String)
    (allowed_misses allowed_matches : Int)
    (acc : List Nat × List NeighborRow) (p : Nat × Nat) : List Nat × List NeighborRow :=
  if acceptPair features.length allowed_misses allowed_matches
      (matchCount df features p.1 p.2) then
    let nd1 := acc.1.set p.1 (acc.1.getD p.1 0 + 1)
    let nd2 := nd1.set p.2 (nd1.getD p.2 0 + 1)
    (nd2, acc.2 ++ [mkRow df features p])
  else acc

/-- The body of `Neighbors._Compute`: a fold of `scanStep` over the
visited index pairs, starting from an all-zero density table and an empty
neighbors table.  Returns the pair `(nd, neighbors)`. -/
def computeFold (df : DataFrame) (features : List String)
    (allowed_misses allowed_matches : Int) : List Nat × List NeighborRow :=
  (pairIndices df.nrows).foldl
    (scanStep df features allowed_misses allowed_matches)
    (List.replicate df.nrows 0, [])

/-- `Neighbors._Compute` threaded through `Option`: every cell access of
the scan is checked, so the scan fails iff some lookup raises. -/
def computeChecked (df : DataFrame) (features : List String)
    (allowed_misses allowed_matches : Int) : Option (List Nat × List NeighborRow) :=
  (pairIndices df.nrows).foldlM
    (fun acc p => do
      let ms ← matchedFeaturesChecked df features p.1 p.2
      if acceptPair features.length allowed_misses allowed_matches ms.1 then
        let nd1 := acc.1.set p.1 (acc.1.getD p.1 0 + 1)
        let nd2 := nd1.set p.2 (nd1.getD p.2 0 + 1)
        pure (nd2, acc.2 ++ [(⟨df.codeAt p.1, df.codeAt p.2, ms.1, ms.2⟩ : NeighborRow)])
      else pure acc)
    (List.replicate df.nrows 0, [])

/-- The pairs the scan accepts, as index pairs in visiting order. -/
def acceptedPairs (df : DataFrame) (features : List String)
    (allowed_misses allowed_matches : Int) : List (Nat × Nat) :=
  (pairIndices df.nrows).filter
    (fun p => acceptPair features.length allowed_misses allowed_matches
      (matchCount df features p.1 p.2))

/-- The errors `Neighbors.__init__` can raise (both are `ValueError` in the
source; the spec names them `UnknownFeatureError` and
`InvalidThresholdError`).  The unknown-feature error carries the full list
of missing feature names interpolated into its message. -/
inductive NDError where
  | unknownFeatureError (missing : List String)
  | invalidThresholdError (msg : String)
  deriving DecidableEq, Repr

/-- The state of a fully constructed `Neighbors` object: the dataset, the
density column `nd` and the neighbors table. -/
structure NDResult where
  data : DataFrame
  nd : List Nat
  neighbors : List NeighborRow
  deriving DecidableEq, Repr

/-- `Neighbors.__init__(data, features, allowed_misses, allowed_matches)`:
validation in source order (unknown features, then `allowed_misses`, then
`allowed_matches`, which defaults to `len(features)` when `None`),
followed by `self.nd, self.neighbors = self._Compute()`. -/
def mkNeighbors (data : DataFrame) (features : List String)
    (allowed_misses : Int) (allowed_matches : Option Int) : Except NDError NDResult :=
  let missing := features.filter (fun x => decide (¬ x ∈ data.columns))
  if missing ≠ [] then
    .error (.unknownFeatureError missing)
  else if allowed_misses > (features.length : Int) - 1 then
    .error (.invalidThresholdError
      "allowed_misses must be less than or equal to (length(features) - 1)")
  else if allowed_misses < 0 then
    .error (.invalidThresholdError "allowed_misses must be >=0")
  else
    match allowed_matches with
    | none =>
        let r := computeFold data features allowed_misses (features.length : Int)
        .ok ⟨data, r.1, r.2⟩
    | some m =>
        if m > (features.length : Int) then
          .error (.invalidThresholdError "allowed_matches cannot exceed length(features)")
        else if m < 1 then
          .error (.invalidThresholdError "allowed_matches must be greater than 1")
        else
          let r := computeFold data features allowed_misses m
          .ok ⟨data, r.1, r.2⟩

/-- The row with target and neighbor swapped and all other fields kept, as
built column-wise by `Neighbors._MirrorNeighbors`. -/
def mirrorRow (r : NeighborRow) : NeighborRow :=
  ⟨r.neighbor, r.target, r.num_matched_features, r.matched_features⟩

/-- The sort key order of `result.sort_values(by=['target', 'neighbor'])`:
lexicographic on the pair (target, neighbor). -/
def ndLe (a b : NeighborRow) : Prop :=
  a.target < b.target ∨ (a.target = b.target ∧ a.neighbor ≤ b.neighbor)

instance : DecidableRel ndLe := fun a b =>
  inferInstanceAs (Decidable (a.target < b.target ∨
    (a.target = b.target ∧ a.neighbor ≤ b.neighbor)))

/-- `Neighbors._MirrorNeighbors` as a list transform: concatenate the
table with its target/neighbor-swapped copy and sort by (target,
neighbor). -/
def mirrorNeighborList (l : List NeighborRow) : List NeighborRow :=
  List.insertionSort ndLe (l ++ l.map mirrorRow)

/-- `Neighbors._MirrorNeighbors(self)` applied to the stored table. -/
def NDResult.mirrorNeighbors (r : NDResult) : List NeighborRow :=
  mirrorNeighborList r.neighbors

/-- The body of the `Neighbors.Neighbors` accessor, with the
`mirror_neighbors` parameter written in its signature. -/
def NDResult.neighborsMethod (r : NDResult) (mirror_neighbors : Bool) : List NeighborRow :=
  if mirror_neighbors then r.mirrorNeighbors else r.neighbors

/-- `Neighbors.Neighbors` as Python executes it: the method is decorated
with `@property`, so attribute access always calls it with the default
`mirror_neighbors=True`; no caller can pass the boolean. -/
def NDResult.neighborsAccessor (r : NDResult) : List NeighborRow :=
  r.neighborsMethod true

/-- `Neighbors.ND`: accessor for the density table. -/
def NDResult.nd_accessor (r : NDResult) : List Nat := r.nd

/-- The strict lexicographic order on index pairs: `i` ascending, then `j`
ascending — the order in which the double loop visits the pairs. -/
def pairLt (p q : Nat × Nat) : Prop :=
  p.1 < q.1 ∨ (p.1 = q.1 ∧ p.2 < q.2)

/-- The unordered pair of identifiers named by a neighbor row, represented
by its sorted form. -/
def upair (r : NeighborRow) : Nat × Nat :=
  (min r.target r.neighbor, max r.target r.neighbor)

/-- `allowed_matches` as resolved by `Neighbors.__init__`: the supplied
value, or `len(features)` when `None` was passed. -/
def resolveMatches (features : List String) (allowed_matches : Option Int) : Int :=
  allowed_matches.getD (features.length : Int)

instance : IsTotal NeighborRow ndLe :=
  ⟨by intro a b; unfold ndLe; omega⟩

instance : IsTrans NeighborRow ndLe :=
  ⟨by intro a b c hab hbc; unfold ndLe at hab hbc ⊢; omega⟩

/-- The §8 scenario of the spec: three items A=1, B=2, C=3 over features
F1, F2, F3, where A and B agree everywhere and C differs on F3. -/
def exDf : DataFrame :=
  ⟨["F1", "F2", "F3"], [1, 2, 3],
   [[some 1, some 1, some 1], [some 1, some 1, some 1], [some 1, some 1, some 2]]⟩

/-- The second §8 scenario: item D=4 with feature F3 absent, compared with
A=1; F1 and F2 match, F3 is missing on D. -/
def exDfMissing : DataFrame :=
  ⟨["F1", "F2", "F3"], [1, 4],
   [[some 1, some 1, some 1], [some 1, some 1, none]]⟩

/-- A dataset whose single feature column is named by the empty string;
both rows carry the same present value 1. -/
def exDfEmptyName : DataFrame :=
  ⟨[""], [0, 1], [[some 1], [some 1]]⟩

example : pairIndices 3 = [(0, 1), (0, 2), (1, 2)] := by decide

example : matchFeature exDf 0 1 "F1" = true := by decide

example : matchFeature exDfMissing 0 1 "F3" = false := by decide

example : matchedFeatures exDf ["F1", "F2", "F3"] 0 1 = (3, "F1, F2, F3") := by decide

example :
    mkNeighbors exDf ["F1", "F2", "F3"] 0 none =
      .ok ⟨exDf, [1, 1, 0], [⟨1, 2, 3, "F1, F2, F3"⟩]⟩ := by rfl

example :
    mkNeighbors exDfEmptyName [""] 0 none =
      .ok ⟨exDfEmptyName, [1, 1], [⟨0, 1, 1, ""⟩]⟩ := by rfl

example :
    mkNeighbors exDfMissing ["F1", "F2", "F3"] 0 none =
      .ok ⟨exDfMissing, [0, 0], []⟩ := by rfl

example :
    (NDResult.neighborsAccessor ⟨exDf, [1, 1, 0], [⟨1, 2, 3, "F1, F2, F3"⟩]⟩).length = 2 := by
  decide

/-- The inner loop body `if i != j: append (i, j)` over any index list,
rewritten as a filter followed by a map. -/
theorem pair_filterMap_eq (i : Nat) (l : List Nat) :
    l.filterMap (fun j => if i ≠ j then some (i, j) else none) =
      (l.filter (fun j => decide (i ≠ j))).map (fun j => (i, j)) := by
  simp only [ne_eq, ite_not, decide_not]
  induction l with
  | nil => rfl
  | cons a t ih =>
    simp only [List.filterMap_cons, List.filter_cons]
    by_cases h : i = a
    · subst h
      simp [ih]
    · simp [h, ih]

/-- `pairIndices` as a filter-map normal form. -/
theorem pairIndices_eq (n : Nat) :
    pairIndices n =
      (List.range n).flatMap (fun i =>
        ((List.range' i (n - i)).filter (fun j => decide (i ≠ j))).map (fun j => (i, j))) := by
  simp only [pairIndices, pair_filterMap_eq]

/-- A pair is visited by the double loop iff its components are strictly
increasing indices into the dataset. -/
theorem mem_pairIndices {n : Nat} {p : Nat × Nat} :
    p ∈ pairIndices n ↔ p.1 < p.2 ∧ p.2 < n := by
  obtain ⟨a, b⟩ := p
  rw [pairIndices_eq]
  simp only [List.mem_flatMap, List.mem_map, List.mem_filter, List.mem_range,
    List.mem_range'_1, decide_eq_true_eq]
  constructor
  · rintro ⟨i, hi, j, ⟨⟨hij, hjn⟩, hne⟩, hpq⟩
    obtain ⟨rfl, rfl⟩ := Prod.mk.injEq .. ▸ hpq
    constructor <;> omega
  · rintro ⟨hab, hbn⟩
    exact ⟨a, by omega, b, ⟨⟨by omega, by omega⟩, by omega⟩, rfl⟩

/-- The double loop visits the pairs in strictly increasing lexicographic
order: `i` ascending, then `j` ascending. -/
theorem pairIndices_pairwise (n : Nat) : List.Pairwise pairLt (pairIndices n) := by
  rw [pairIndices_eq, List.pairwise_flatMap]
  constructor
  · intro i _
    rw [List.pairwise_map]
    have h1 : List.Pairwise (· < ·) (List.range' i (n - i)) :=
      List.pairwise_lt_range' ..
    exact (h1.filter _).imp (fun h => Or.inr ⟨rfl, h⟩)
  · have h2 : List.Pairwise (· < ·) (List.range n) := List.pairwise_lt_range n
    refine h2.imp ?_
    rintro a b hab x hx y hy
    simp only [List.mem_map, List.mem_filter] at hx hy
    obtain ⟨jx, _, rfl⟩ := hx
    obtain ⟨jy, _, rfl⟩ := hy
    exact Or.inl hab

/-- Each pair is visited at most once. -/
theorem pairIndices_nodup (n : Nat) : (pairIndices n).Nodup := by
  refine (pairIndices_pairwise n).imp ?_
  intro a b hab
  intro h
  subst h
  unfold pairLt at hab
  omega

/-- Reading back the index just written. -/
theorem getD_set_self (l : List Nat) (i : Nat) (v : Nat) (h : i < l.length) :
    (l.set i v).getD i 0 = v := by
  rw [List.getD_eq_getElem?_getD, List.getElem?_set]
  simp [h]

/-- Writing one index leaves the others unchanged. -/
theorem getD_set_ne (l : List Nat) {i j : Nat} (v : Nat) (h : i ≠ j) :
    (l.set i v).getD j 0 = l.getD j 0 := by
  rw [List.getD_eq_getElem?_getD, List.getElem?_set, if_neg h, ← List.getD_eq_getElem?_getD]

/-- An in-range `nd[i] += 1` adds exactly 1 to the total. -/
theorem sum_set_add_one (l : List Nat) (i : Nat) (h : i < l.length) :
    (l.set i (l.getD i 0 + 1)).sum = l.sum + 1 := by
  induction l generalizing i with
  | nil => simp at h
  | cons a t ih =>
    cases i with
    | zero => simp [List.getD_cons_zero]; omega
    | succ k =>
      have hk : k < t.length := by simpa using h
      rw [List.getD_cons_succ, List.set_cons_succ, List.sum_cons, List.sum_cons, ih k hk]
      omega

/-- The match counter accumulated by the inner feature loop counts the
features on which the pair matches. -/
theorem matchedFeatures_foldl_fst (df : DataFrame) (i j : Nat) (l : List String)
    (acc : Nat × String) :
    (l.foldl
      (fun acc f =>
        if matchFeature df i j f then
          (acc.1 + 1, if acc.2 = "" then f else acc.2 ++ ", " ++ f)
        else acc)
      acc).1
      = acc.1 + (l.filter (fun f => matchFeature df i j f)).length := by
  induction l generalizing acc with
  | nil => simp
  | cons a t ih =>
    rw [List.foldl_cons, List.filter_cons]
    by_cases h : matchFeature df i j a
    · rw [if_pos h, if_pos h, ih]
      simp
      omega
    · rw [if_neg h, if_neg h, ih]

/-- `matchCount` counts the matching features. -/
theorem matchCount_eq_filter_length (df : DataFrame) (features : List String) (i j : Nat) :
    matchCount df features i j
      = (features.filter (fun f => matchFeature df i j f)).length := by
  unfold matchCount matchedFeatures
  rw [matchedFeatures_foldl_fst]
  simp

/-- Once the accumulated `matched_features` string is nonempty, or some
feature with a nonempty name matches, the inner loop ends with a nonempty
string. -/
theorem matchedFeatures_foldl_snd_ne (df : DataFrame) (i j : Nat) (l : List String)
    (acc : Nat × String)
    (hl : ∀ f ∈ l, f ≠ "")
    (h : acc.2 ≠ "" ∨ 0 < (l.filter (fun f => matchFeature df i j f)).length) :
    (l.foldl
      (fun acc f =>
        if matchFeature df i j f then
          (acc.1 + 1, if acc.2 = "" then f else acc.2 ++ ", " ++ f)
        else acc)
      acc).2 ≠ "" := by
  induction l generalizing acc with
  | nil =>
    rcases h with h | h
    · simpa using h
    · simp at h
  | cons a t ih =>
    rw [List.foldl_cons]
    by_cases hm : matchFeature df i j a
    · rw [if_pos hm]
      refine ih _ (fun f hf => hl f (List.mem_cons_of_mem a hf)) (Or.inl ?_)
      by_cases he : acc.2 = ""
      · simpa [he] using hl a (List.mem_cons_self a t)
      · rw [if_neg he]
        show acc.2 ++ ", " ++ a ≠ ""
        intro hcontra
        have h1 : (acc.2 ++ ", " ++ a).length = 0 := by rw [hcontra]; rfl
        have h2 : (acc.2 ++ ", " ++ a).length = acc.2.length + 2 + a.length := by
          rw [String.length_append, String.length_append]
          rfl
        omega
    · rw [if_neg hm]
      refine ih _ (fun f hf => hl f (List.mem_cons_of_mem a hf)) ?_
      rcases h with h | h
      · exact Or.inl h
      · rw [List.filter_cons, if_neg (by simpa using hm)] at h
        exact Or.inr h

/-- `scanStep` on an accepted pair, with the let-bindings spelled out. -/
theorem scanStep_pos (df : DataFrame) (fs : List String) (am aM : Int)
    (acc : List Nat × List NeighborRow) (p : Nat × Nat)
    (h : acceptPair fs.length am aM (matchCount df fs p.1 p.2) = true) :
    scanStep df fs am aM acc p =
      ((acc.1.set p.1 (acc.1.getD p.1 0 + 1)).set p.2
         ((acc.1.set p.1 (acc.1.getD p.1 0 + 1)).getD p.2 0 + 1),
       acc.2 ++ [mkRow df fs p]) := by
  unfold scanStep
  rw [if_pos h]

/-- `scanStep` on a rejected pair changes nothing. -/
theorem scanStep_neg (df : DataFrame) (fs : List String) (am aM : Int)
    (acc : List Nat × List NeighborRow) (p : Nat × Nat)
    (h : ¬ acceptPair fs.length am aM (matchCount df fs p.1 p.2) = true) :
    scanStep df fs am aM acc p = acc := by
  unfold scanStep
  rw [if_neg h]

/-- The neighbors table accumulated by the pair fold: the initial rows
followed by one row per accepted pair, in visiting order. -/
theorem foldl_scanStep_snd (df : DataFrame) (fs : List String) (am aM : Int)
    (L : List (Nat × Nat)) (nd0 : List Nat) (rows0 : List NeighborRow) :
    (L.foldl (scanStep df fs am aM) (nd0, rows0)).2
      = rows0 ++
        (L.filter (fun p => acceptPair fs.length am aM (matchCount df fs p.1 p.2))).map
          (mkRow df fs) := by
  induction L generalizing nd0 rows0 with
  | nil => simp
  | cons p t ih =>
    rw [List.foldl_cons, List.filter_cons]
    by_cases h : acceptPair fs.length am aM (matchCount df fs p.1 p.2)
    · rw [scanStep_pos df fs am aM _ p h, if_pos h, List.map_cons, ih]
      simp
    · rw [scanStep_neg df fs am aM _ p h, if_neg h, ih]

/-- The pair fold never changes the length of the density table. -/
theorem foldl_scanStep_fst_length (df : DataFrame) (fs : List String) (am aM : Int)
    (L : List (Nat × Nat)) (nd0 : List Nat) (rows0 : List NeighborRow) :
    ((L.foldl (scanStep df fs am aM) (nd0, rows0)).1).length = nd0.length := by
  induction L generalizing nd0 rows0 with
  | nil => rfl
  | cons p t ih =>
    rw [List.foldl_cons]
    by_cases h : acceptPair fs.length am aM (matchCount df fs p.1 p.2)
    · rw [scanStep_pos df fs am aM _ p h, ih]
      simp
    · rw [scanStep_neg df fs am aM _ p h, ih]

/-- Each accepted pair adds exactly 2 to the total of the density table:
1 for each of its two members. -/
theorem foldl_scanStep_sum (df : DataFrame) (fs : List String) (am aM : Int)
    (L : List (Nat × Nat)) (nd0 : List Nat) (rows0 : List NeighborRow)
    (hL : ∀ p ∈ L, p.1 < nd0.length ∧ p.2 < nd0.length) :
    ((L.foldl (scanStep df fs am aM) (nd0, rows0)).1).sum
      = nd0.sum +
        2 * (L.filter (fun p => acceptPair fs.length am aM (matchCount df fs p.1 p.2))).length := by
  induction L generalizing nd0 rows0 with
  | nil => simp
  | cons p t ih =>
    obtain ⟨hp1, hp2⟩ := hL p (List.mem_cons_self p t)
    have hLt : ∀ q ∈ t, q.1 < nd0.length ∧ q.2 < nd0.length :=
      fun q hq => hL q (List.mem_cons_of_mem p hq)
    rw [List.foldl_cons, List.filter_cons]
    by_cases h : acceptPair fs.length am aM (matchCount df fs p.1 p.2)
    · rw [scanStep_pos df fs am aM _ p h, if_pos h]
      rw [ih _ _ (fun q hq => by simpa [List.length_set] using hLt q hq)]
      have h1 : (nd0.set p.1 (nd0.getD p.1 0 + 1)).sum = nd0.sum + 1 :=
        sum_set_add_one nd0 p.1 hp1
      have h2 :
          ((nd0.set p.1 (nd0.getD p.1 0 + 1)).set p.2
            ((nd0.set p.1 (nd0.getD p.1 0 + 1)).getD p.2 0 + 1)).sum
            = (nd0.set p.1 (nd0.getD p.1 0 + 1)).sum + 1 :=
        sum_set_add_one _ p.2 (by simpa [List.length_set] using hp2)
      rw [h2, h1]
      simp
      omega
    · rw [scanStep_neg df fs am aM _ p h, if_neg h, ih _ _ hLt]

/-- The density entry of item `i` after the pair fold: its initial value
plus the number of accepted pairs having `i` as a member. -/
theorem foldl_scanStep_getD (df : DataFrame) (fs : List String) (am aM : Int)
    (L : List (Nat × Nat)) (nd0 : List Nat) (rows0 : List NeighborRow)
    (hL : ∀ p ∈ L, p.1 < nd0.length ∧ p.2 < nd0.length ∧ p.1 ≠ p.2) (i : Nat) :
    ((L.foldl (scanStep df fs am aM) (nd0, rows0)).1).getD i 0
      = nd0.getD i 0 +
        ((L.filter (fun p => acceptPair fs.length am aM (matchCount df fs p.1 p.2))).countP
          (fun p => decide (p.1 = i) || decide (p.2 = i))) := by
  induction L generalizing nd0 rows0 with
  | nil => simp
  | cons p t ih =>
    obtain ⟨hp1, hp2, hpne⟩ := hL p (List.mem_cons_self p t)
    have hLt : ∀ q ∈ t, q.1 < nd0.length ∧ q.2 < nd0.length ∧ q.1 ≠ q.2 :=
      fun q hq => hL q (List.mem_cons_of_mem p hq)
    rw [List.foldl_cons, List.filter_cons]
    by_cases h : acceptPair fs.length am aM (matchCount df fs p.1 p.2)
    · rw [scanStep_pos df fs am aM _ p h, if_pos h, List.countP_cons]
      rw [ih _ _ (fun q hq => by simpa [List.length_set] using hLt q hq)]
      have hkey :
          ((nd0.set p.1 (nd0.getD p.1 0 + 1)).set p.2
            ((nd0.set p.1 (nd0.getD p.1 0 + 1)).getD p.2 0 + 1)).getD i 0
            = nd0.getD i 0 +
              (if decide (p.1 = i) || decide (p.2 = i) then 1 else 0) := by
        by_cases e1 : p.1 = i
        · have e2 : p.2 ≠ i := fun hc => hpne (e1.trans hc.symm)
          rw [getD_set_ne _ _ e2, e1, getD_set_self nd0 i _ (e1 ▸ hp1)]
          simp [e1]
        · by_cases e2 : p.2 = i
          · rw [e2, getD_set_self _ i _ (by simpa [List.length_set] using e2 ▸ hp2)]
            rw [getD_set_ne _ _ e1]
            simp [e1]
          · rw [getD_set_ne _ _ e2, getD_set_ne _ _ e1]
            simp [e1, e2]
      rw [hkey]
      by_cases e : (decide (p.1 = i) || decide (p.2 = i)) = true
      · rw [if_pos e]
        omega
      · rw [if_neg e]
        omega
    · rw [scanStep_neg df fs am aM _ p h, if_neg h, ih _ _ hLt]

/-- Reading the all-zero initial density table. -/
theorem getD_replicate_zero (n i : Nat) : (List.replicate n (0 : Nat)).getD i 0 = 0 := by
  rw [List.getD_eq_getElem?_getD, List.getElem?_replicate]
  split <;> rfl

/-- The neighbors table of `_Compute`: one row per accepted pair, in
visiting order. -/
theorem computeFold_snd (df : DataFrame) (fs : List String) (am aM : Int) :
    (computeFold df fs am aM).2 = (acceptedPairs df fs am aM).map (mkRow df fs) := by
  unfold computeFold acceptedPairs
  rw [foldl_scanStep_snd]
  simp

/-- The density table of `_Compute` has one entry per dataset row. -/
theorem computeFold_fst_length (df : DataFrame) (fs : List String) (am aM : Int) :
    (computeFold df fs am aM).1.length = df.nrows := by
  unfold computeFold
  rw [foldl_scanStep_fst_length]
  simp

/-- The density total of `_Compute` is twice the number of accepted
pairs. -/
theorem computeFold_fst_sum (df : DataFrame) (fs : List String) (am aM : Int) :
    (computeFold df fs am aM).1.sum = 2 * (acceptedPairs df fs am aM).length := by
  unfold computeFold acceptedPairs
  rw [foldl_scanStep_sum]
  · simp
  · intro p hp
    have h := mem_pairIndices.mp hp
    simp only [List.length_replicate]
    omega

/-- The density entry of item `i` after `_Compute`: the number of accepted
pairs having `i` as a member. -/
theorem computeFold_fst_getD (df : DataFrame) (fs : List String) (am aM : Int) (i : Nat) :
    (computeFold df fs am aM).1.getD i 0
      = (acceptedPairs df fs am aM).countP (fun p => decide (p.1 = i) || decide (p.2 = i)) := by
  unfold computeFold acceptedPairs
  rw [foldl_scanStep_getD]
  · rw [getD_replicate_zero]
    simp
  · intro p hp
    have h := mem_pairIndices.mp hp
    simp only [List.length_replicate]
    exact ⟨by omega, by omega, by omega⟩

/-- At most `n - 1` visited pairs contain a given index. -/
theorem countP_pairIndices_le (n i : Nat) :
    (pairIndices n).countP (fun p => decide (p.1 = i) || decide (p.2 = i)) ≤ n - 1 := by
  by_cases hi : i < n
  · rw [List.countP_eq_length_filter]
    have hnd : ((pairIndices n).filter
        (fun p => decide (p.1 = i) || decide (p.2 = i))).Nodup :=
      (pairIndices_nodup n).filter _
    rw [← List.toFinset_card_of_nodup hnd]
    have hmap : ∀ p ∈ ((pairIndices n).filter
        (fun p => decide (p.1 = i) || decide (p.2 = i))).toFinset,
        (if p.1 = i then p.2 else p.1) ∈ (Finset.range n).erase i := by
      intro p hp
      simp only [List.mem_toFinset, List.mem_filter] at hp
      have h1 := mem_pairIndices.mp hp.1
      have h2 : p.1 = i ∨ p.2 = i := by simpa using hp.2
      rw [Finset.mem_erase, Finset.mem_range]
      by_cases ep : p.1 = i
      · rw [if_pos ep]
        exact ⟨by omega, by omega⟩
      · rw [if_neg ep]
        rcases h2 with h | h
        · exact absurd h ep
        · exact ⟨ep, by omega⟩
    have hinj : Set.InjOn (fun p : Nat × Nat => if p.1 = i then p.2 else p.1)
        ↑(((pairIndices n).filter
          (fun p => decide (p.1 = i) || decide (p.2 = i))).toFinset) := by
      intro p hp q hq hpq
      simp only [Finset.mem_coe, List.mem_toFinset, List.mem_filter] at hp hq
      have hp1 := mem_pairIndices.mp hp.1
      have hq1 := mem_pairIndices.mp hq.1
      have hp2 : p.1 = i ∨ p.2 = i := by simpa using hp.2
      have hq2 : q.1 = i ∨ q.2 = i := by simpa using hq.2
      simp only at hpq
      by_cases ep : p.1 = i
      · rw [if_pos ep] at hpq
        by_cases eq' : q.1 = i
        · rw [if_pos eq'] at hpq
          exact Prod.ext_iff.mpr ⟨by omega, hpq⟩
        · rw [if_neg eq'] at hpq
          rcases hq2 with h | h
          · exact absurd h eq'
          · exfalso; omega
      · rw [if_neg ep] at hpq
        rcases hp2 with h | h
        · exact absurd h ep
        · by_cases eq' : q.1 = i
          · rw [if_pos eq'] at hpq
            exfalso; omega
          · rw [if_neg eq'] at hpq
            rcases hq2 with h' | h'
            · exact absurd h' eq'
            · exact Prod.ext_iff.mpr ⟨hpq, by omega⟩
    have hcard := Finset.card_le_card_of_injOn _ hmap hinj
    rw [Finset.card_erase_of_mem (Finset.mem_range.mpr hi), Finset.card_range] at hcard
    exact hcard
  · have hz : (pairIndices n).countP
        (fun p => decide (p.1 = i) || decide (p.2 = i)) = 0 := by
      rw [List.countP_eq_zero]
      intro p hp
      have h := mem_pairIndices.mp hp
      simp only [Bool.or_eq_true, decide_eq_true_eq]
      push_neg
      exact ⟨by omega, by omega⟩
    omega

/-- Every density value produced by `_Compute` is at most `n - 1`. -/
theorem computeFold_fst_le (df : DataFrame) (fs : List String) (am aM : Int) :
    ∀ x ∈ (computeFold df fs am aM).1, x ≤ df.nrows - 1 := by
  intro x hx
  obtain ⟨idx, hidx, hval⟩ := List.mem_iff_getElem.mp hx
  have hg : (computeFold df fs am aM).1.getD idx 0 = x := by
    rw [List.getD_eq_getElem _ _ hidx, hval]
  rw [← hg, computeFold_fst_getD]
  calc (acceptedPairs df fs am aM).countP (fun p => decide (p.1 = idx) || decide (p.2 = idx))
      ≤ (pairIndices df.nrows).countP
          (fun p => decide (p.1 = idx) || decide (p.2 = idx)) := by
        unfold acceptedPairs
        rw [List.countP_filter]
        exact List.countP_mono_left (fun a _ h => by
          simp only [Bool.and_eq_true] at h
          exact h.1)
    _ ≤ df.nrows - 1 := countP_pairIndices_le df.nrows idx

/-- Swapping target and neighbor twice is the identity. -/
theorem mirrorRow_mirrorRow (r : NeighborRow) : mirrorRow (mirrorRow r) = r := rfl

/-- Occurrences of a row in the swapped copy. -/
theorem count_map_mirrorRow (l : List NeighborRow) (r : NeighborRow) :
    (l.map mirrorRow).count r = l.count (mirrorRow r) := by
  induction l with
  | nil => rfl
  | cons a t ih =>
    rw [List.map_cons, List.count_cons, List.count_cons, ih]
    have hiff : (mirrorRow a = r) ↔ (a = mirrorRow r) :=
      ⟨fun h => by rw [← h, mirrorRow_mirrorRow], fun h => by rw [h, mirrorRow_mirrorRow]⟩
    congr 1
    simp only [beq_iff_eq]
    exact if_congr (iff_of_eq (by simpa using hiff)) rfl rfl

/-- The mirrored table is a permutation of the table plus its swapped
copy. -/
theorem mirrorNeighborList_perm (l : List NeighborRow) :
    (mirrorNeighborList l).Perm (l ++ l.map mirrorRow) :=
  List.perm_insertionSort ndLe _

/-- Mirroring doubles the number of rows. -/
theorem mirrorNeighborList_length (l : List NeighborRow) :
    (mirrorNeighborList l).length = 2 * l.length := by
  rw [(mirrorNeighborList_perm l).length_eq, List.length_append, List.length_map]
  omega

/-- Row multiplicities in the mirrored table: each row occurs once per
original occurrence plus once per occurrence of its swap. -/
theorem mirrorNeighborList_count (l : List NeighborRow) (r : NeighborRow) :
    (mirrorNeighborList l).count r = l.count r + l.count (mirrorRow r) := by
  rw [(mirrorNeighborList_perm l).count_eq, List.count_append, count_map_mirrorRow]

/-- The mirrored table is sorted by (target, neighbor). -/
theorem mirrorNeighborList_sorted (l : List NeighborRow) :
    List.Sorted ndLe (mirrorNeighborList l) :=
  List.sorted_insertionSort ndLe _

/-- Swapping the direction of a row names the same unordered pair. -/
theorem upair_mirrorRow (r : NeighborRow) : upair (mirrorRow r) = upair r := by
  unfold upair mirrorRow
  exact Prod.ext_iff.mpr ⟨Nat.min_comm .., Nat.max_comm ..⟩

/-- Deduplicating the mirrored table (keeping the rows with target at most
neighbor) names exactly the unordered pairs of the original table. -/
theorem mirror_dedup_upairs (l : List NeighborRow) (q : Nat × Nat) :
    q ∈ ((mirrorNeighborList l).filter (fun r => decide (r.target ≤ r.neighbor))).map upair
      ↔ q ∈ l.map upair := by
  constructor
  · intro hq
    obtain ⟨r, hr, rfl⟩ := List.mem_map.mp hq
    have hr1 := (List.mem_filter.mp hr).1
    have hr2 := (mirrorNeighborList_perm l).mem_iff.mp hr1
    rcases List.mem_append.mp hr2 with h | h
    · exact List.mem_map.mpr ⟨r, h, rfl⟩
    · obtain ⟨s, hs, rfl⟩ := List.mem_map.mp h
      exact List.mem_map.mpr ⟨s, hs, (upair_mirrorRow s).symm⟩
  · intro hq
    obtain ⟨r, hr, rfl⟩ := List.mem_map.mp hq
    by_cases h : r.target ≤ r.neighbor
    · refine List.mem_map.mpr ⟨r, List.mem_filter.mpr ⟨?_, by simpa using h⟩, rfl⟩
      exact (mirrorNeighborList_perm l).mem_iff.mpr (List.mem_append.mpr (Or.inl hr))
    · refine List.mem_map.mpr ⟨mirrorRow r, List.mem_filter.mpr ⟨?_, ?_⟩, upair_mirrorRow r⟩
      · exact (mirrorNeighborList_perm l).mem_iff.mpr
          (List.mem_append.mpr (Or.inr (List.mem_map.mpr ⟨r, hr, rfl⟩)))
      · simp only [mirrorRow, decide_eq_true_eq]
        omega

/-- `_MatchFeature` returns true exactly when both items carry the same
present value for the feature. -/
theorem matchFeature_iff (df : DataFrame) (i j : Nat) (f : String) :
    matchFeature df i j f = true
      ↔ ∃ v, df.getVal i f = some v ∧ df.getVal j f = some v := by
  unfold matchFeature
  cases hi : df.getVal i f with
  | none => simp
  | some a =>
    cases hj : df.getVal j f with
    | none => simp
    | some b =>
      simp only [beq_iff_eq, Option.some.injEq]
      constructor
      · intro h
        exact ⟨a, rfl, h.symm⟩
      · rintro ⟨v, hv1, hv2⟩
        rw [hv1, hv2]

/-- The column lookup fails exactly on absent columns. -/
theorem colIndex_eq_none_iff (cols : List String) (f : String) :
    colIndex cols f = none ↔ ¬ f ∈ cols := by
  induction cols with
  | nil => simp [colIndex]
  | cons c cs ih =>
    by_cases h : c = f
    · simp [colIndex, h]
    · simp only [colIndex, if_neg h, Option.map_eq_none', ih, List.mem_cons]
      constructor
      · intro hnotin
        push_neg
        exact ⟨fun he => h he.symm, hnotin⟩
      · intro hno
        exact fun hm => hno (Or.inr hm)

/-- A successful column lookup is in range. -/
theorem colIndex_lt {cols : List String} {f : String} {c : Nat}
    (h : colIndex cols f = some c) : c < cols.length := by
  induction cols generalizing c with
  | nil => simp [colIndex] at h
  | cons a cs ih =>
    by_cases ha : a = f
    · simp [colIndex, ha] at h
      simp only [List.length_cons]
      omega
    · simp [colIndex, ha] at h
      obtain ⟨b, hb, rfl⟩ := h
      have := ih hb
      simp only [List.length_cons]
      omega

/-- For a validated feature and an in-range row, the checked cell access
succeeds and agrees with the total model. -/
theorem getCellChecked_eq_getVal (df : DataFrame) (hwf : df.WF) {i : Nat} {f : String}
    (hf : f ∈ df.columns) (hi : i < df.nrows) :
    df.getCellChecked i f = some (df.getVal i f) := by
  unfold DataFrame.getCellChecked DataFrame.getVal
  cases hc : colIndex df.columns f with
  | none => exact absurd hf ((colIndex_eq_none_iff df.columns f).mp hc)
  | some c =>
    have hclen : c < df.columns.length := colIndex_lt hc
    have hi' : i < df.cells.length := by rw [hwf.1]; exact hi
    have hrowlen : df.cells[i].length = df.columns.length := hwf.2 _ (List.getElem_mem hi')
    have hc' : c < df.cells[i].length := by omega
    have h1 : df.cells[i]? = some df.cells[i] := List.getElem?_eq_getElem hi'
    have h2 : df.cells.getD i [] = df.cells[i] := List.getD_eq_getElem _ _ hi'
    simp only [h1, h2, List.getElem?_eq_getElem hc', List.getD_eq_getElem _ _ hc']

/-- For a validated feature and in-range rows, the checked `_MatchFeature`
succeeds and agrees with the total model. -/
theorem matchFeatureChecked_eq (df : DataFrame) (hwf : df.WF) {i j : Nat} {f : String}
    (hf : f ∈ df.columns) (hi : i < df.nrows) (hj : j < df.nrows) :
    matchFeatureChecked df i j f = some (matchFeature df i j f) := by
  unfold matchFeatureChecked matchFeature
  rw [getCellChecked_eq_getVal df hwf hf hi, getCellChecked_eq_getVal df hwf hf hj]

/-- For validated features and in-range rows, the checked inner feature
loop succeeds and agrees with the total model, from any accumulator. -/
theorem matchedFeaturesChecked_foldlM (df : DataFrame) (hwf : df.WF) {i j : Nat}
    (fs : List String) (hfs : ∀ f ∈ fs, f ∈ df.columns)
    (hi : i < df.nrows) (hj : j < df.nrows) (acc : Nat × String) :
    (fs.foldlM
      (fun acc f => do
        let b ← matchFeatureChecked df i j f
        pure (if b then
                (acc.1 + 1, if acc.2 = "" then f else acc.2 ++ ", " ++ f)
              else acc))
      acc : Option (Nat × String))
      = some (fs.foldl
          (fun acc f =>
            if matchFeature df i j f then
              (acc.1 + 1, if acc.2 = "" then f else acc.2 ++ ", " ++ f)
            else acc)
          acc) := by
  induction fs generalizing acc with
  | nil => rfl
  | cons a t ih =>
    rw [List.foldlM_cons, List.foldl_cons,
      matchFeatureChecked_eq df hwf (hfs a (List.mem_cons_self a t)) hi hj]
    simp only [Option.bind_eq_bind, Option.some_bind, pure]
    exact ih (fun f hf => hfs f (List.mem_cons_of_mem a hf)) _

/-- `matchedFeaturesChecked` succeeds and agrees with `matchedFeatures`
once the features are validated. -/
theorem matchedFeaturesChecked_eq (df : DataFrame) (hwf : df.WF) {i j : Nat}
    (fs : List String) (hfs : ∀ f ∈ fs, f ∈ df.columns)
    (hi : i < df.nrows) (hj : j < df.nrows) :
    matchedFeaturesChecked df fs i j = some (matchedFeatures df fs i j) := by
  unfold matchedFeaturesChecked matchedFeatures
  exact matchedFeaturesChecked_foldlM df hwf fs hfs hi hj _

/-- With validated features, the checked scan succeeds and agrees with the
total scan from any accumulator. -/
theorem computeChecked_foldlM (df : DataFrame) (hwf : df.WF) (fs : List String)
    (hfs : ∀ f ∈ fs, f ∈ df.columns) (am aM : Int)
    (L : List (Nat × Nat)) (hL : ∀ p ∈ L, p.1 < df.nrows ∧ p.2 < df.nrows)
    (acc : List Nat × List NeighborRow) :
    (L.foldlM
      (fun acc p => do
        let ms ← matchedFeaturesChecked df fs p.1 p.2
        if acceptPair fs.length am aM ms.1 then
          let nd1 := acc.1.set p.1 (acc.1.getD p.1 0 + 1)
          let nd2 := nd1.set p.2 (nd1.getD p.2 0 + 1)
          pure (nd2, acc.2 ++ [(⟨df.codeAt p.1, df.codeAt p.2, ms.1, ms.2⟩ : NeighborRow)])
        else pure acc)
      acc : Option (List Nat × List NeighborRow))
      = some (L.foldl (scanStep df fs am aM) acc) := by
  induction L generalizing acc with
  | nil => rfl
  | cons p t ih =>
    obtain ⟨hp1, hp2⟩ := hL p (List.mem_cons_self p t)
    have hLt : ∀ q ∈ t, q.1 < df.nrows ∧ q.2 < df.nrows :=
      fun q hq => hL q (List.mem_cons_of_mem p hq)
    rw [List.foldlM_cons, List.foldl_cons,
      matchedFeaturesChecked_eq df hwf fs hfs hp1 hp2]
    simp only [Option.bind_eq_bind, Option.some_bind]
    by_cases h : acceptPair fs.length am aM (matchedFeatures df fs p.1 p.2).1
    · rw [if_pos h]
      simp only [pure, Option.some_bind]
      rw [scanStep_pos df fs am aM acc p h]
      exact ih hLt _
    · rw [if_neg h]
      simp only [pure, Option.some_bind]
      rw [scanStep_neg df fs am aM acc p h]
      exact ih hLt _

/-- Once construction-time validation has passed, the fully checked scan
cannot fail: it completes and returns exactly the two tables of the total
model. -/
theorem computeChecked_eq_computeFold (df : DataFrame) (hwf : df.WF) (fs : List String)
    (hfs : ∀ f ∈ fs, f ∈ df.columns) (am aM : Int) :
    computeChecked df fs am aM = some (computeFold df fs am aM) := by
  unfold computeChecked computeFold
  exact computeChecked_foldlM df hwf fs hfs am aM _
    (fun p hp => by
      have := mem_pairIndices.mp hp
      exact ⟨by omega, by omega⟩) _

/-- Omitting `allowed_matches` is the same as passing `len(features)`. -/
theorem mkNeighbors_none_eq (df : DataFrame) (fs : List String) (am : Int) :
    mkNeighbors df fs am none = mkNeighbors df fs am (some (fs.length : Int)) := by
  unfold mkNeighbors
  by_cases h1 : fs.filter (fun x => decide (¬ x ∈ df.columns)) ≠ []
  · rw [if_pos h1, if_pos h1]
  · rw [if_neg h1, if_neg h1]
    by_cases h2 : am > (fs.length : Int) - 1
    · rw [if_pos h2, if_pos h2]
    · rw [if_neg h2, if_neg h2]
      by_cases h3 : am < 0
      · rw [if_pos h3, if_pos h3]
      · rw [if_neg h3, if_neg h3]
        have hk1 : ¬ ((fs.length : Int) > (fs.length : Int)) := by omega
        have hk2 : ¬ ((fs.length : Int) < 1) := by omega
        simp only [if_neg hk1, if_neg hk2]

/-- Missing-feature characterization of the validation filter. -/
theorem filter_missing_eq_nil_iff (df : DataFrame) (fs : List String) :
    fs.filter (fun x => decide (¬ x ∈ df.columns)) = [] ↔ ∀ f ∈ fs, f ∈ df.columns := by
  rw [List.filter_eq_nil_iff]
  constructor
  · intro h f hf
    have := h f hf
    simpa using this
  · intro h f hf
    simpa using h f hf


/-- `mkNeighbors` with a supplied `allowed_matches`, with the option match
reduced. -/
theorem mkNeighbors_some_unfold (df : DataFrame) (fs : List String) (am m : Int) :
    mkNeighbors df fs am (some m) =
      (if fs.filter (fun x => decide (¬ x ∈ df.columns)) ≠ [] then
        .error (.unknownFeatureError (fs.filter (fun x => decide (¬ x ∈ df.columns))))
      else if am > (fs.length : Int) - 1 then
        .error (.invalidThresholdError
          "allowed_misses must be less than or equal to (length(features) - 1)")
      else if am < 0 then
        .error (.invalidThresholdError "allowed_misses must be >=0")
      else if m > (fs.length : Int) then
        .error (.invalidThresholdError "allowed_matches cannot exceed length(features)")
      else if m < 1 then
        .error (.invalidThresholdError "allowed_matches must be greater than 1")
      else
        .ok ⟨df, (computeFold df fs am m).1, (computeFold df fs am m).2⟩) := rfl

/-- `mkNeighbors` with `allowed_matches` omitted, with the option match
reduced. -/
theorem mkNeighbors_none_unfold (df : DataFrame) (fs : List String) (am : Int) :
    mkNeighbors df fs am none =
      (if fs.filter (fun x => decide (¬ x ∈ df.columns)) ≠ [] then
        .error (.unknownFeatureError (fs.filter (fun x => decide (¬ x ∈ df.columns))))
      else if am > (fs.length : Int) - 1 then
        .error (.invalidThresholdError
          "allowed_misses must be less than or equal to (length(features) - 1)")
      else if am < 0 then
        .error (.invalidThresholdError "allowed_misses must be >=0")
      else
        .ok ⟨df, (computeFold df fs am (fs.length : Int)).1,
             (computeFold df fs am (fs.length : Int)).2⟩) := rfl

/-- Full characterization of successful construction: every requested
feature is a column, the thresholds pass validation, and the stored tables
are those of `_Compute` (with `allowed_matches` resolved). -/
theorem mkNeighbors_ok_iff (df : DataFrame) (fs : List String) (am : Int)
    (aM : Option Int) (res : NDResult) :
    mkNeighbors df fs am aM = .ok res
      ↔ (∀ f ∈ fs, f ∈ df.columns) ∧ 0 ≤ am ∧ am ≤ (fs.length : Int) - 1 ∧
        (∀ m, aM = some m → 1 ≤ m ∧ m ≤ (fs.length : Int)) ∧
        res = ⟨df, (computeFold df fs am (resolveMatches fs aM)).1,
               (computeFold df fs am (resolveMatches fs aM)).2⟩ := by
  cases aM with
  | none =>
    rw [mkNeighbors_none_unfold]
    by_cases h1 : fs.filter (fun x => decide (¬ x ∈ df.columns)) ≠ []
    · rw [if_pos h1]
      constructor
      · intro h
        exact absurd h (by simp)
      · rintro ⟨hcols, -⟩
        exact absurd ((filter_missing_eq_nil_iff df fs).mpr hcols) h1
    · rw [if_neg h1]
      rw [ne_eq, not_not] at h1
      have hcols := (filter_missing_eq_nil_iff df fs).mp h1
      by_cases h2 : am > (fs.length : Int) - 1
      · rw [if_pos h2]
        constructor
        · intro h
          exact absurd h (by simp)
        · rintro ⟨-, -, ham, -⟩
          omega
      · rw [if_neg h2]
        by_cases h3 : am < 0
        · rw [if_pos h3]
          constructor
          · intro h
            exact absurd h (by simp)
          · rintro ⟨-, ham, -⟩
            omega
        · rw [if_neg h3]
          simp only [Except.ok.injEq, resolveMatches, Option.getD_none]
          constructor
          · intro h
            refine ⟨hcols, by omega, by omega, ?_, h.symm⟩
            intro m hm
            cases hm
          · rintro ⟨-, -, -, -, h⟩
            exact h.symm
  | some m =>
    rw [mkNeighbors_some_unfold]
    by_cases h1 : fs.filter (fun x => decide (¬ x ∈ df.columns)) ≠ []
    · rw [if_pos h1]
      constructor
      · intro h
        exact absurd h (by simp)
      · rintro ⟨hcols, -⟩
        exact absurd ((filter_missing_eq_nil_iff df fs).mpr hcols) h1
    · rw [if_neg h1]
      rw [ne_eq, not_not] at h1
      have hcols := (filter_missing_eq_nil_iff df fs).mp h1
      by_cases h2 : am > (fs.length : Int) - 1
      · rw [if_pos h2]
        constructor
        · intro h
          exact absurd h (by simp)
        · rintro ⟨-, -, ham, -⟩
          omega
      · rw [if_neg h2]
        by_cases h3 : am < 0
        · rw [if_pos h3]
          constructor
          · intro h
            exact absurd h (by simp)
          · rintro ⟨-, ham, -⟩
            omega
        · rw [if_neg h3]
          by_cases h4 : m > (fs.length : Int)
          · rw [if_pos h4]
            constructor
            · intro h
              exact absurd h (by simp)
            · rintro ⟨-, -, -, hm, -⟩
              have := hm m rfl
              omega
          · rw [if_neg h4]
            by_cases h5 : m < 1
            · rw [if_pos h5]
              constructor
              · intro h
                exact absurd h (by simp)
              · rintro ⟨-, -, -, hm, -⟩
                have := hm m rfl
                omega
            · rw [if_neg h5]
              simp only [Except.ok.injEq, resolveMatches, Option.getD_some]
              constructor
              · intro h
                refine ⟨hcols, by omega, by omega, ?_, h.symm⟩
                rintro m' hm'
                cases hm'
                omega
              · rintro ⟨-, -, -, -, h⟩
                exact h.symm

/-- When every requested feature is present, construction never reports an
unknown-feature error; when some is absent, it reports exactly the full
list of missing names, before any computation. -/
theorem mkNeighbors_unknown_iff (df : DataFrame) (fs : List String) (am : Int)
    (aM : Option Int) :
    ((∃ ms, mkNeighbors df fs am aM = .error (.unknownFeatureError ms))
        ↔ ∃ f ∈ fs, ¬ f ∈ df.columns)
      ∧ ∀ ms, mkNeighbors df fs am aM = .error (.unknownFeatureError ms)
          → ms = fs.filter (fun x => decide (¬ x ∈ df.columns)) := by
  have hyes : fs.filter (fun x => decide (¬ x ∈ df.columns)) ≠ [] →
      mkNeighbors df fs am aM
        = .error (.unknownFeatureError (fs.filter (fun x => decide (¬ x ∈ df.columns)))) := by
    intro hne
    cases aM with
    | none => rw [mkNeighbors_none_unfold, if_pos hne]
    | some m => rw [mkNeighbors_some_unfold, if_pos hne]
  have hno : fs.filter (fun x => decide (¬ x ∈ df.columns)) = [] →
      ∀ ms, mkNeighbors df fs am aM ≠ .error (.unknownFeatureError ms) := by
    intro hnil ms
    have hnil' : ¬ fs.filter (fun x => decide (¬ x ∈ df.columns)) ≠ [] := by
      simpa using hnil
    cases aM with
    | none =>
      rw [mkNeighbors_none_unfold, if_neg hnil']
      by_cases h2 : am > (fs.length : Int) - 1
      · rw [if_pos h2]; simp
      · rw [if_neg h2]
        by_cases h3 : am < 0
        · rw [if_pos h3]; simp
        · rw [if_neg h3]; simp
    | some m =>
      rw [mkNeighbors_some_unfold, if_neg hnil']
      by_cases h2 : am > (fs.length : Int) - 1
      · rw [if_pos h2]; simp
      · rw [if_neg h2]
        by_cases h3 : am < 0
        · rw [if_pos h3]; simp
        · rw [if_neg h3]
          by_cases h4 : m > (fs.length : Int)
          · rw [if_pos h4]; simp
          · rw [if_neg h4]
            by_cases h5 : m < 1
            · rw [if_pos h5]; simp
            · rw [if_neg h5]; simp
  constructor
  · constructor
    · rintro ⟨ms, hms⟩
      by_contra hc
      push_neg at hc
      exact hno ((filter_missing_eq_nil_iff df fs).mpr hc) ms hms
    · rintro ⟨f, hf, hfc⟩
      have hne : fs.filter (fun x => decide (¬ x ∈ df.columns)) ≠ [] := by
        intro hnil
        exact hfc ((filter_missing_eq_nil_iff df fs).mp hnil f hf)
      exact ⟨_, hyes hne⟩
  · intro ms hms
    by_cases hne : fs.filter (fun x => decide (¬ x ∈ df.columns)) = []
    · exact absurd hms (hno hne ms)
    · have h := (hyes hne).symm.trans hms
      have h2 : NDError.unknownFeatureError (fs.filter (fun x => decide (¬ x ∈ df.columns)))
          = NDError.unknownFeatureError ms := by
        exact Except.error.inj h
      cases h2
      rfl

/-- With all requested features present, construction reports an
invalid-threshold error exactly when `allowed_misses` is outside
`[0, k-1]` or a supplied `allowed_matches` is outside `[1, k]`. -/
theorem mkNeighbors_invalid_iff (df : DataFrame) (fs : List String) (am : Int)
    (aM : Option Int) (hcols : ∀ f ∈ fs, f ∈ df.columns) :
    (∃ msg, mkNeighbors df fs am aM = .error (.invalidThresholdError msg))
      ↔ (am < 0 ∨ (fs.length : Int) - 1 < am
          ∨ ∃ m, aM = some m ∧ (m < 1 ∨ (fs.length : Int) < m)) := by
  have hnil : ¬ fs.filter (fun x => decide (¬ x ∈ df.columns)) ≠ [] := by
    simpa using (filter_missing_eq_nil_iff df fs).mpr hcols
  cases aM with
  | none =>
    rw [mkNeighbors_none_unfold, if_neg hnil]
    by_cases h2 : am > (fs.length : Int) - 1
    · rw [if_pos h2]
      constructor
      · intro _
        omega
      · intro _
        exact ⟨_, rfl⟩
    · rw [if_neg h2]
      by_cases h3 : am < 0
      · rw [if_pos h3]
        constructor
        · intro _
          omega
        · intro _
          exact ⟨_, rfl⟩
      · rw [if_neg h3]
        constructor
        · rintro ⟨msg, hmsg⟩
          exact absurd hmsg (by simp)
        · rintro (h | h | ⟨m, hm, -⟩)
          · omega
          · omega
          · cases hm
  | some m =>
    rw [mkNeighbors_some_unfold, if_neg hnil]
    by_cases h2 : am > (fs.length : Int) - 1
    · rw [if_pos h2]
      constructor
      · intro _
        omega
      · intro _
        exact ⟨_, rfl⟩
    · rw [if_neg h2]
      by_cases h3 : am < 0
      · rw [if_pos h3]
        constructor
        · intro _
          omega
        · intro _
          exact ⟨_, rfl⟩
      · rw [if_neg h3]
        by_cases h4 : m > (fs.length : Int)
        · rw [if_pos h4]
          constructor
          · intro _
            exact Or.inr (Or.inr ⟨m, rfl, Or.inr h4⟩)
          · intro _
            exact ⟨_, rfl⟩
        · rw [if_neg h4]
          by_cases h5 : m < 1
          · rw [if_pos h5]
            constructor
            · intro _
              exact Or.inr (Or.inr ⟨m, rfl, Or.inl h5⟩)
            · intro _
              exact ⟨_, rfl⟩
          · rw [if_neg h5]
            constructor
            · rintro ⟨msg, hmsg⟩
              exact absurd hmsg (by simp)
            · rintro (h | h | ⟨m', hm', hbad⟩)
              · omega
              · omega
              · rw [Option.some.injEq] at hm'
                subst hm'
                omega

/-- In a duplicate-free list, a member is counted exactly once (stated for
any lawful boolean equality). -/
theorem count_eq_one_of_mem_lawful {α : Type} [BEq α] [LawfulBEq α] {a : α} {l : List α}
    (hn : l.Nodup) (ha : a ∈ l) : l.count a = 1 := by
  induction l with
  | nil => cases ha
  | cons b t ih =>
    rw [List.count_cons]
    rcases List.mem_cons.mp ha with rfl | hat
    · rw [if_pos (by simp)]
      have hbt : a ∉ t := (List.nodup_cons.mp hn).1
      rw [List.count_eq_zero_of_not_mem hbt]
    · have h2 := List.nodup_cons.mp hn
      rw [ih h2.2 hat]
      have hba : ¬ (b == a) = true := by
        simp only [beq_iff_eq]
        intro hc
        subst hc
        exact h2.1 hat
      rw [if_neg hba]

/-- Membership in the accepted-pair list, unfolded to the acceptance
bounds. -/
theorem mem_acceptedPairs_iff (df : DataFrame) (fs : List String) (am aM : Int)
    (i j : Nat) :
    (i, j) ∈ acceptedPairs df fs am aM
      ↔ i < j ∧ j < df.nrows
        ∧ (fs.length : Int) - am ≤ (matchCount df fs i j : Int)
        ∧ (matchCount df fs i j : Int) ≤ aM := by
  unfold acceptedPairs
  rw [List.mem_filter, mem_pairIndices]
  simp only [acceptPair, decide_eq_true_eq]
  tauto

/-- Under the default thresholds the acceptance bounds collapse to an
exact match on every feature. -/
theorem mem_acceptedPairs_defaults (df : DataFrame) (fs : List String) {i j : Nat}
    (hij : i < j) (hjn : j < df.nrows) :
    (i, j) ∈ acceptedPairs df fs 0 (fs.length : Int)
      ↔ ∀ f ∈ fs, matchFeature df i j f = true := by
  rw [mem_acceptedPairs_iff, matchCount_eq_filter_length]
  have hle : (fs.filter (fun f => matchFeature df i j f)).length ≤ fs.length :=
    List.length_filter_le _ _
  constructor
  · rintro ⟨-, -, hge, -⟩
    have hlen : (fs.filter (fun f => matchFeature df i j f)).length = fs.length := by omega
    exact List.filter_length_eq_length.mp hlen
  · intro hall
    have hlen : fs.filter (fun f => matchFeature df i j f) = fs :=
      List.filter_eq_self.mpr hall
    rw [hlen]
    exact ⟨hij, hjn, by omega, by omega⟩

/-- C1: a pair is emitted as a neighbor row (and contributes to both
densities) iff its match count satisfies
`k - allowedMisses ≤ matches ∧ matches ≤ allowedMatches`; under the
defaults (`allowedMisses = 0`, `allowedMatches = k`) this holds iff every
feature matches, which excludes any feature missing on either item. -/
theorem claim_C1_acceptance (df : DataFrame) (fs : List String) (am aM : Int) (i j : Nat) :
    ((computeFold df fs am aM).2 = (acceptedPairs df fs am aM).map (mkRow df fs))
    ∧ ((i, j) ∈ acceptedPairs df fs am aM
        ↔ i < j ∧ j < df.nrows
          ∧ (fs.length : Int) - am ≤ (matchCount df fs i j : Int)
          ∧ (matchCount df fs i j : Int) ≤ aM)
    ∧ ((i, j) ∈ acceptedPairs df fs am aM →
        1 ≤ (computeFold df fs am aM).1.getD i 0 ∧ 1 ≤ (computeFold df fs am aM).1.getD j 0)
    ∧ (i < j → j < df.nrows →
        ((i, j) ∈ acceptedPairs df fs 0 (fs.length : Int)
          ↔ ∀ f ∈ fs, matchFeature df i j f = true)) := by
  refine ⟨computeFold_snd df fs am aM, mem_acceptedPairs_iff df fs am aM i j, ?_,
    fun hij hjn => mem_acceptedPairs_defaults df fs hij hjn⟩
  intro hmem
  constructor
  · rw [computeFold_fst_getD]
    have hpos : 0 < (acceptedPairs df fs am aM).countP
        (fun p => decide (p.1 = i) || decide (p.2 = i)) :=
      List.countP_pos_iff.mpr ⟨(i, j), hmem, by simp⟩
    omega
  · rw [computeFold_fst_getD]
    have hpos : 0 < (acceptedPairs df fs am aM).countP
        (fun p => decide (p.1 = j) || decide (p.2 = j)) :=
      List.countP_pos_iff.mpr ⟨(i, j), hmem, by simp⟩
    omega

/-- Witness for C1 on the §8 scenario: the pair (A, B) is accepted under
the defaults, the pair (A, C) is rejected, and the accepted pair
contributes to the density of item A. -/
theorem claim_C1_witness :
    ((0, 1) ∈ acceptedPairs exDf ["F1", "F2", "F3"] 0 3)
    ∧ ¬ ((0, 2) ∈ acceptedPairs exDf ["F1", "F2", "F3"] 0 3)
    ∧ 1 ≤ (computeFold exDf ["F1", "F2", "F3"] 0 3).1.getD 0 0 := by
  have h := claim_C1_acceptance exDf ["F1", "F2", "F3"] 0 3 0 1
  have h2 := claim_C1_acceptance exDf ["F1", "F2", "F3"] 0 3 0 2
  have hmem : (0, 1) ∈ acceptedPairs exDf ["F1", "F2", "F3"] 0 3 :=
    (h.2.2.2 (by decide) (by decide)).mpr (by decide)
  refine ⟨hmem, ?_, (h.2.2.1 hmem).1⟩
  intro hc
  have hbad := (h2.2.2.2 (by decide) (by decide)).mp hc
  have := hbad "F3" (by decide)
  revert this
  decide

/-- C2: the feature-match test is true iff both items carry the same
present value; it is false whenever either value is missing, and with a
validated column and in-range rows the checked lookup never fails. -/
theorem claim_C2_match_semantics (df : DataFrame) (i j : Nat) (f : String) :
    (matchFeature df i j f = true
      ↔ ∃ v, df.getVal i f = some v ∧ df.getVal j f = some v)
    ∧ (df.getVal i f = none ∨ df.getVal j f = none → matchFeature df i j f = false)
    ∧ (df.WF → f ∈ df.columns → i < df.nrows → j < df.nrows →
        matchFeatureChecked df i j f = some (matchFeature df i j f)) := by
  refine ⟨matchFeature_iff df i j f, ?_,
    fun hwf hf hi hj => matchFeatureChecked_eq df hwf hf hi hj⟩
  intro h
  cases hb : matchFeature df i j f
  · rfl
  · obtain ⟨v, hv1, hv2⟩ := (matchFeature_iff df i j f).mp hb
    rcases h with h | h
    · rw [h] at hv1
      cases hv1
    · rw [h] at hv2
      cases hv2

/-- Witness for C2: in the missing-value scenario the F3 comparison is
false (the value is missing on item D), the checked lookup still succeeds,
and the F1 comparison is true. -/
theorem claim_C2_witness :
    matchFeature exDfMissing 0 1 "F3" = false
    ∧ matchFeatureChecked exDfMissing 0 1 "F3" = some false
    ∧ matchFeature exDfMissing 0 1 "F1" = true := by
  have h := claim_C2_match_semantics exDfMissing 0 1 "F3"
  have h1 := claim_C2_match_semantics exDfMissing 0 1 "F1"
  have hfalse : matchFeature exDfMissing 0 1 "F3" = false :=
    h.2.1 (Or.inr (by decide))
  refine ⟨hfalse, ?_, h1.1.mpr ⟨1, by decide, by decide⟩⟩
  rw [h.2.2 ⟨by decide, by decide⟩ (by decide) (by decide) (by decide), hfalse]

/-- C3: the density total equals twice the number of emitted rows, the
table has one entry per item, each entry is the number of accepted pairs
containing the item, and every entry lies in `[0, n-1]`. -/
theorem claim_C3_density_invariants (df : DataFrame) (fs : List String) (am aM : Int) :
    ((computeFold df fs am aM).1.sum = 2 * (computeFold df fs am aM).2.length)
    ∧ ((computeFold df fs am aM).1.length = df.nrows)
    ∧ (∀ x ∈ (computeFold df fs am aM).1, 0 ≤ x ∧ x ≤ df.nrows - 1)
    ∧ (∀ i, (computeFold df fs am aM).1.getD i 0
        = (acceptedPairs df fs am aM).countP
            (fun p => decide (p.1 = i) || decide (p.2 = i))) := by
  refine ⟨?_, computeFold_fst_length df fs am aM, ?_, computeFold_fst_getD df fs am aM⟩
  · rw [computeFold_fst_sum, computeFold_snd, List.length_map]
  · intro x hx
    exact ⟨Nat.zero_le x, computeFold_fst_le df fs am aM x hx⟩

/-- Witness for C3 on the §8 scenario: total 2 with one emitted row, and
the density of item A is 1, at most `n - 1`. -/
theorem claim_C3_witness :
    (computeFold exDf ["F1", "F2", "F3"] 0 3).1.sum
        = 2 * (computeFold exDf ["F1", "F2", "F3"] 0 3).2.length
    ∧ 1 ≤ exDf.nrows - 1 := by
  have h := claim_C3_density_invariants exDf ["F1", "F2", "F3"] 0 3
  exact ⟨h.1, le_trans (by decide) (h.2.2.1 1 (by decide)).2⟩

/-- C4: how the `Neighbors` accessor actually behaves.  In the source the
method body takes `mirror_neighbors` (default `True`) and returns the
deduplicated table when it is false, but the method is decorated with
`@property`, so attribute access always invokes it with the default and no
caller can pass the boolean.  On the §8 scenario the accessor returns the
mirrored two-row table, never the one-row deduplicated table, while the
density table is computed independently of mirroring. -/
theorem claim_C4_property_always_mirrors :
    mkNeighbors exDf ["F1", "F2", "F3"] 0 none
        = .ok ⟨exDf, [1, 1, 0], [⟨1, 2, 3, "F1, F2, F3"⟩]⟩
    ∧ NDResult.neighborsAccessor ⟨exDf, [1, 1, 0], [⟨1, 2, 3, "F1, F2, F3"⟩]⟩
        = NDResult.neighborsMethod ⟨exDf, [1, 1, 0], [⟨1, 2, 3, "F1, F2, F3"⟩]⟩ true
    ∧ NDResult.neighborsAccessor ⟨exDf, [1, 1, 0], [⟨1, 2, 3, "F1, F2, F3"⟩]⟩
        = [⟨1, 2, 3, "F1, F2, F3"⟩, ⟨2, 1, 3, "F1, F2, F3"⟩]
    ∧ NDResult.neighborsMethod ⟨exDf, [1, 1, 0], [⟨1, 2, 3, "F1, F2, F3"⟩]⟩ false
        = [⟨1, 2, 3, "F1, F2, F3"⟩] := by
  exact ⟨by rfl, rfl, by rfl, rfl⟩

/-- C5: `allowed_matches` omitted behaves exactly like `allowed_matches =
k`; with all features present, construction reports an invalid-threshold
error iff `allowed_misses` is outside `[0, k-1]` or a supplied
`allowed_matches` is outside `[1, k]`; and a successful construction
implies all threshold bounds hold. -/
theorem claim_C5_threshold_validation (df : DataFrame) (fs : List String) (am : Int)
    (aM : Option Int) :
    (mkNeighbors df fs am none = mkNeighbors df fs am (some (fs.length : Int)))
    ∧ ((∀ f ∈ fs, f ∈ df.columns) →
        ((∃ msg, mkNeighbors df fs am aM = .error (.invalidThresholdError msg))
          ↔ (am < 0 ∨ (fs.length : Int) - 1 < am
              ∨ ∃ m, aM = some m ∧ (m < 1 ∨ (fs.length : Int) < m))))
    ∧ (∀ res, mkNeighbors df fs am aM = .ok res →
        0 ≤ am ∧ am ≤ (fs.length : Int) - 1
          ∧ ∀ m, aM = some m → 1 ≤ m ∧ m ≤ (fs.length : Int)) := by
  refine ⟨mkNeighbors_none_eq df fs am,
    fun h => mkNeighbors_invalid_iff df fs am aM h, ?_⟩
  intro res h
  have hh := (mkNeighbors_ok_iff df fs am aM res).mp h
  exact ⟨hh.2.1, hh.2.2.1, hh.2.2.2.1⟩

/-- Witness for C5: `allowed_misses = 3` with `k = 3` is rejected with an
invalid-threshold error, and the omitted `allowed_matches` equals the
explicit `k = 3`. -/
theorem claim_C5_witness :
    (∃ msg, mkNeighbors exDf ["F1", "F2", "F3"] 3 none
        = .error (.invalidThresholdError msg))
    ∧ mkNeighbors exDf ["F1", "F2", "F3"] 0 none
        = mkNeighbors exDf ["F1", "F2", "F3"] 0 (some 3) := by
  have h := claim_C5_threshold_validation exDf ["F1", "F2", "F3"] 3 none
  have h0 := claim_C5_threshold_validation exDf ["F1", "F2", "F3"] 0 none
  exact ⟨(h.2.1 (by decide)).mpr (Or.inr (Or.inl (by decide))), h0.1⟩

/-- C6: construction reports an unknown-feature error iff some requested
feature is absent from the columns, and the reported list is the full list
of missing names (every one of them, not just the first). -/
theorem claim_C6_unknown_features (df : DataFrame) (fs : List String) (am : Int)
    (aM : Option Int) :
    ((∃ ms, mkNeighbors df fs am aM = .error (.unknownFeatureError ms))
        ↔ ∃ f ∈ fs, ¬ f ∈ df.columns)
    ∧ ∀ ms, mkNeighbors df fs am aM = .error (.unknownFeatureError ms)
        → ms = fs.filter (fun x => decide (¬ x ∈ df.columns)) :=
  mkNeighbors_unknown_iff df fs am aM

/-- Witness for C6: requesting F1 plus two absent columns fails, and the
error lists both missing names. -/
theorem claim_C6_witness :
    (∃ ms, mkNeighbors exDf ["F1", "FX", "FY"] 0 none = .error (.unknownFeatureError ms))
    ∧ mkNeighbors exDf ["F1", "FX", "FY"] 0 none
        = .error (.unknownFeatureError ["FX", "FY"]) := by
  have h := claim_C6_unknown_features exDf ["F1", "FX", "FY"] 0 none
  have hex : ∃ ms, mkNeighbors exDf ["F1", "FX", "FY"] 0 none
      = .error (.unknownFeatureError ms) :=
    h.1.mpr ⟨"FX", by decide, by decide⟩
  obtain ⟨ms, hms⟩ := hex
  have hval := h.2 ms hms
  refine ⟨⟨ms, hms⟩, ?_⟩
  rw [hms, hval]
  rfl

/-- C7: the mirror transform doubles the rows, contains each original row
and its swap with all other fields unchanged, is sorted by
(target, neighbor), and deduplicating it by `target ≤ neighbor` names
exactly the unordered pairs of the original table. -/
theorem claim_C7_mirror (l : List NeighborRow) (q : Nat × Nat) (r : NeighborRow) :
    ((mirrorNeighborList l).length = 2 * l.length)
    ∧ ((mirrorNeighborList l).count r = l.count r + l.count (mirrorRow r))
    ∧ List.Sorted ndLe (mirrorNeighborList l)
    ∧ (q ∈ ((mirrorNeighborList l).filter
          (fun r => decide (r.target ≤ r.neighbor))).map upair
        ↔ q ∈ l.map upair)
    ∧ (∀ res : NDResult, res.mirrorNeighbors = mirrorNeighborList res.neighbors) :=
  ⟨mirrorNeighborList_length l, mirrorNeighborList_count l r, mirrorNeighborList_sorted l,
   mirror_dedup_upairs l q, fun _ => rfl⟩

/-- Witness for C7 on a one-row table stored in the reversed direction:
the mirrored table has two rows and the deduplicated unordered pair is
recovered. -/
theorem claim_C7_witness :
    (mirrorNeighborList [⟨2, 1, 3, "F1"⟩]).length = 2
    ∧ ((1, 2) ∈ ((mirrorNeighborList [⟨2, 1, 3, "F1"⟩]).filter
        (fun r => decide (r.target ≤ r.neighbor))).map upair) := by
  have h := claim_C7_mirror [⟨2, 1, 3, "F1"⟩] (1, 2) ⟨2, 1, 3, "F1"⟩
  exact ⟨h.1, h.2.2.2.1.mpr (by decide)⟩

/-- C8: the double loop visits exactly the pairs `(i, j)` with `i < j < n`,
each exactly once, never a self-pair, in the order `i` ascending then `j`
ascending, and the emitted row for `(i, j)` has the Code of `i` as target
and the Code of `j` as neighbor. -/
theorem claim_C8_scan_order (n : Nat) (df : DataFrame) (fs : List String) (am aM : Int)
    (i j : Nat) :
    ((i, j) ∈ pairIndices n ↔ i < j ∧ j < n)
    ∧ (i < j → j < n → (pairIndices n).count (i, j) = 1)
    ∧ (∀ p ∈ pairIndices n, p.1 ≠ p.2)
    ∧ List.Pairwise pairLt (pairIndices n)
    ∧ ((computeFold df fs am aM).2 = (acceptedPairs df fs am aM).map (mkRow df fs))
    ∧ (mkRow df fs (i, j)).target = df.codeAt i
    ∧ (mkRow df fs (i, j)).neighbor = df.codeAt j := by
  refine ⟨mem_pairIndices, ?_, ?_, pairIndices_pairwise n,
    computeFold_snd df fs am aM, rfl, rfl⟩
  · intro hij hjn
    exact count_eq_one_of_mem_lawful (pairIndices_nodup n)
      ((@mem_pairIndices n (i, j)).mpr ⟨hij, hjn⟩)
  · intro p hp
    have := mem_pairIndices.mp hp
    omega

/-- Witness for C8 on three items: the pair (0, 2) is visited exactly
once. -/
theorem claim_C8_witness :
    (pairIndices 3).count (0, 2) = 1 ∧ (0, 2) ∈ pairIndices 3 := by
  have h := claim_C8_scan_order 3 exDf ["F1"] 0 1 0 2
  exact ⟨h.2.1 (by decide) (by decide), h.1.mpr (by decide)⟩

/-- C9: once construction succeeds on a well-formed dataset, the fully
checked scan (every cell access modelled as fallible) cannot fail: it
returns exactly the two stored tables. -/
theorem claim_C9_no_runtime_error (df : DataFrame) (fs : List String) (am : Int)
    (aM : Option Int) (res : NDResult) (hwf : df.WF)
    (hok : mkNeighbors df fs am aM = .ok res) :
    computeChecked df fs am (resolveMatches fs aM) = some (res.nd, res.neighbors) := by
  have h := (mkNeighbors_ok_iff df fs am aM res).mp hok
  rw [computeChecked_eq_computeFold df hwf fs h.1 am (resolveMatches fs aM), h.2.2.2.2]

/-- Witness for C9 on the §8 scenario: the checked scan completes with the
expected tables. -/
theorem claim_C9_witness :
    computeChecked exDf ["F1", "F2", "F3"] 0 (resolveMatches ["F1", "F2", "F3"] none)
      = some ([1, 1, 0], [⟨1, 2, 3, "F1, F2, F3"⟩]) := by
  exact claim_C9_no_runtime_error exDf ["F1", "F2", "F3"] 0 none
    ⟨exDf, [1, 1, 0], [⟨1, 2, 3, "F1, F2, F3"⟩]⟩ ⟨by decide, by decide⟩ (by rfl)

/-- Counterexample to C10 as stated: with the (legal) feature list whose
single name is the empty string, construction succeeds and emits a row
with match count 1 but an empty matched-features string. -/
theorem claim_C10_counterexample :
    mkNeighbors exDfEmptyName [""] 0 none
        = .ok ⟨exDfEmptyName, [1, 1], [⟨0, 1, 1, ""⟩]⟩
    ∧ (⟨0, 1, 1, ""⟩ : NeighborRow).num_matched_features = 1
    ∧ (⟨0, 1, 1, ""⟩ : NeighborRow).matched_features = "" :=
  ⟨rfl, rfl, rfl⟩

/-- C10 (amended): construction never succeeds with an empty FeatureSet;
every emitted row has match count at least 1; and its matched-features
string is nonempty provided every feature name is a nonempty string. -/
theorem claim_C10_emitted_positive (df : DataFrame) (fs : List String) (am : Int)
    (aM : Option Int) (res : NDResult)
    (hok : mkNeighbors df fs am aM = .ok res) :
    fs ≠ []
    ∧ ∀ row ∈ res.neighbors, 1 ≤ row.num_matched_features
        ∧ ((∀ f ∈ fs, f ≠ "") → row.matched_features ≠ "") := by
  have h := (mkNeighbors_ok_iff df fs am aM res).mp hok
  have hk : 1 ≤ (fs.length : Int) := by
    have h1 := h.2.1
    have h2 := h.2.2.1
    omega
  constructor
  · intro hnil
    rw [hnil] at hk
    simp at hk
  · intro row hrow
    rw [h.2.2.2.2] at hrow
    rw [computeFold_snd] at hrow
    obtain ⟨p, hp, rfl⟩ := List.mem_map.mp hrow
    obtain ⟨a, b⟩ := p
    have hacc := (mem_acceptedPairs_iff df fs am (resolveMatches fs aM) a b).mp hp
    have hmc : 1 ≤ matchCount df fs a b := by
      have ham := h.2.2.1
      have hge := hacc.2.2.1
      omega
    refine ⟨hmc, ?_⟩
    intro hnames
    show (matchedFeatures df fs a b).2 ≠ ""
    unfold matchedFeatures
    apply matchedFeatures_foldl_snd_ne df a b fs (0, "") hnames
    right
    rw [← matchCount_eq_filter_length]
    omega

/-- Witness for C10 (amended) on the §8 scenario: the feature list is
nonempty and the single emitted row has a positive match count and a
nonempty matched-features string. -/
theorem claim_C10_witness :
    ["F1", "F2", "F3"] ≠ ([] : List String)
    ∧ 1 ≤ (⟨1, 2, 3, "F1, F2, F3"⟩ : NeighborRow).num_matched_features
    ∧ (⟨1, 2, 3, "F1, F2, F3"⟩ : NeighborRow).matched_features ≠ "" := by
  have h := claim_C10_emitted_positive exDf ["F1", "F2", "F3"] 0 none
    ⟨exDf, [1, 1, 0], [⟨1, 2, 3, "F1, F2, F3"⟩]⟩ (by rfl)
  have hr := h.2 ⟨1, 2, 3, "F1, F2, F3"⟩ (by decide)
  exact ⟨h.1, hr.1, hr.2 (by decide)⟩
